import Mathlib

/-!
Shallow embedding of `src/lib/actions/question.action.ts`: server-side data
operations of a question-and-answer platform over a document store with five
collections (Question, Tag, User, Interaction, Answer).

Modelling conventions:
* Document ids (`_id` / ObjectId) are modelled as `Nat`; the external Clerk
  identity of a user is a `String`.
* The document store is a `DB` record of lists, one per collection, in
  insertion (natural) order.
* `findById` / `findOne` is `List.find?`; `findByIdAndUpdate` /
  `findOneAndUpdate` updates the first matching document (`updateFirst`);
  `deleteOne` removes the first match (`List.eraseP`); `deleteMany` keeps the
  non-matching documents (`List.filter`); `updateMany` maps over all matches.
* A case-insensitive regex test `new RegExp(s, "i")` against a field is
  modelled as case-insensitive substring containment, and the anchored
  case-insensitive tag-name regex as case-insensitive string equality
  (regex metacharacter escaping is out of scope).
* Operations that re-raise their errors (`getQuestions`, `getQuestionById`,
  vote, `getHotQuestions`, `getRecommendedQuestions`) return the error to the
  caller; the vote operations return the final store state together with the
  caller-visible error (`DB × Option String`), since their not-found throw
  happens after the `findByIdAndUpdate` write was already issued.
  Operations whose catch block only logs (`createQuestion`, `editQuestion`,
  `deleteQuestion`) surface no error: their caller-visible error component is
  `none` even when an error was thrown and caught internally.
* `revalidatePath` and `connectToDatabase` are external side effects with no
  observable store state, and are not modelled.
-/

namespace QA

/-- A Question document (spec §3): title, content, author reference, tag
references, upvote/downvote sets of user references, view counter, answer
references, creation timestamp. -/
structure Question where
  id : Nat
  title : String
  content : String
  author : Nat
  tags : List Nat
  upvotes : List Nat
  downvotes : List Nat
  views : Nat
  answers : List Nat
  createdAt : Nat
  deriving Repr, DecidableEq

/-- A Tag document: name and back-references to questions. -/
structure Tag where
  id : Nat
  name : String
  questions : List Nat
  deriving Repr, DecidableEq

/-- A User document: internal id, external (Clerk) identity key, reputation. -/
structure User where
  id : Nat
  clerkId : String
  reputation : Int
  deriving Repr, DecidableEq

/-- An Interaction document: user, action kind, question, tags snapshot. -/
structure Interaction where
  user : Nat
  action : String
  question : Nat
  tags : List Nat
  deriving Repr, DecidableEq

/-- An Answer document (only its question reference matters in this scope). -/
structure Answer where
  question : Nat
  deriving Repr, DecidableEq

/-- The document store: one list per collection, in insertion order. -/
structure DB where
  questions : List Question
  tags : List Tag
  users : List User
  interactions : List Interaction
  answers : List Answer
  deriving Repr, DecidableEq

/-- `findByIdAndUpdate` / `findOneAndUpdate` without upsert: rewrite the first
document matching the filter, leave everything else unchanged. -/
def updateFirst {α : Type} (p : α → Bool) (f : α → α) : List α → List α
  | [] => []
  | a :: rest => if p a then f a :: rest else a :: updateFirst p f rest

/-- `User.findByIdAndUpdate(uid, { $inc: { reputation: delta } })`. -/
def incReputation (users : List User) (uid : Nat) (delta : Int) : List User :=
  updateFirst (fun u => u.id == uid)
    (fun u => { u with reputation := u.reputation + delta }) users

/-- Character-wise lower-casing of a string, the model of the "i" regex flag
and of `.toLowerCase()` (ASCII case folding). -/
def lowerChars (s : String) : List Char :=
  s.data.map Char.toLower

/-- Case-insensitive substring test, the model of
`{ $regex: new RegExp(s, "i") }` against a string field. -/
def containsCI (needle haystack : String) : Bool :=
  decide (lowerChars needle <:+: lowerChars haystack)

/-- The optional `searchQuery` clause of `getQuestions` /
`getRecommendedQuestions`: title OR content matches, case-insensitively;
absent query matches everything. -/
def matchesSearch (sq : Option String) (q : Question) : Bool :=
  match sq with
  | none => true
  | some s => containsCI s q.title || containsCI s q.content

/-- Parameters of `getQuestions` (defaults as in the destructuring). -/
structure GetQuestionsParams where
  searchQuery : Option String := none
  filter : Option String := none
  page : Nat := 1
  pageSize : Nat := 10

/-- The final `query` object of `getQuestions`: the search clause, plus
`answers: { $size: 0 }` exactly when the filter is "unanswered". -/
def questionQuery (p : GetQuestionsParams) (q : Question) : Bool :=
  matchesSearch p.searchQuery q &&
    (if p.filter = some "unanswered" then q.answers.length == 0 else true)

/-- The `sortOptions` of `getQuestions`: createdAt descending for "newest",
views descending for "frequent", and no sort otherwise (the switch default
and the "unanswered" case leave `sortOptions` empty). The query builder
applies sort before skip/limit regardless of chaining order. -/
def questionSort (p : GetQuestionsParams) (l : List Question) : List Question :=
  if p.filter = some "newest" then
    l.mergeSort (fun a b => decide (b.createdAt ≤ a.createdAt))
  else if p.filter = some "frequent" then
    l.mergeSort (fun a b => decide (b.views ≤ a.views))
  else l

/-- `getQuestions`: filter by search/filter query, sort, skip
`(page-1)*pageSize`, take `pageSize`; `isNext` is true iff the total count of
matching documents exceeds the offset plus the returned count. -/
def getQuestions (db : DB) (p : GetQuestionsParams) : List Question × Bool :=
  let skipAmount := (p.page - 1) * p.pageSize
  let matched := db.questions.filter (questionQuery p)
  let questions := ((questionSort p matched).drop skipAmount).take p.pageSize
  let totalQuestions := matched.length
  (questions, decide (skipAmount + questions.length < totalQuestions))

/-- Parameters of `createQuestion`. -/
structure CreateQuestionParams where
  title : String
  content : String
  tags : List String
  author : Nat
  path : String

/-- The tag upsert loop of `createQuestion`. For each tag name in order:
`Tag.findOneAndUpdate` with filter `name ~ /^name$/i` (modelled as
case-insensitive name equality), update `$setOnInsert: {name}`,
`$push: {questions: qid}`, `upsert: true`. On a hit the first matching tag
document gets the question id appended to its `questions`; on a miss a new tag
document `{id := fresh, name, questions := [qid]}` is appended to the
collection (the `$push` applies to the inserted document too). Returns the
final tag collection and the list `tagDocuments` of resolved tag ids; fresh
ids are drawn consecutively from `fresh`. -/
def upsertTags : List Tag → List String → Nat → Nat → List Tag × List Nat
  | tags, [], _, _ => (tags, [])
  | tags, name :: rest, qid, fresh =>
    match tags.find? (fun t => lowerChars t.name == lowerChars name) with
    | some t =>
      let tags1 := updateFirst (fun u => lowerChars u.name == lowerChars name)
        (fun u => { u with questions := u.questions ++ [qid] }) tags
      let r := upsertTags tags1 rest qid fresh
      (r.1, t.id :: r.2)
    | none =>
      let tags1 := tags ++ [{ id := fresh, name := name, questions := [qid] }]
      let r := upsertTags tags1 rest qid (fresh + 1)
      (r.1, fresh :: r.2)

/-- `createQuestion`: create the question document (with the supplied fresh id
and timestamp), run the tag upsert loop, push the resolved tag ids onto the
question, record an "ask_question" Interaction, increment the author's
reputation by 5. Errors are caught and logged, never surfaced. -/
def createQuestion (db : DB) (p : CreateQuestionParams)
    (newQuestionId freshTagId now : Nat) : DB :=
  let q0 : Question :=
    { id := newQuestionId, title := p.title, content := p.content,
      author := p.author, tags := [], upvotes := [], downvotes := [],
      views := 0, answers := [], createdAt := now }
  let questions1 := db.questions ++ [q0]
  let r := upsertTags db.tags p.tags newQuestionId freshTagId
  let questions2 := updateFirst (fun q => q.id == newQuestionId)
    (fun q => { q with tags := q.tags ++ r.2 }) questions1
  let inter : Interaction :=
    { user := p.author, action := "ask_question", question := newQuestionId,
      tags := r.2 }
  { questions := questions2, tags := r.1,
    users := incReputation db.users p.author 5,
    interactions := db.interactions ++ [inter], answers := db.answers }

/-- `getQuestionById`: soft lookup, `none` when absent (no error thrown). -/
def getQuestionById (db : DB) (questionId : Nat) : Option Question :=
  db.questions.find? (fun q => q.id == questionId)

/-- Parameters of the two vote operations. The caller reports the current
vote state; the service does not re-derive it. -/
structure QuestionVoteParams where
  questionId : Nat
  userId : Nat
  hasAlreadyUpvoted : Bool
  hasAlreadyDownvoted : Bool
  path : String

/-- The `updateQuery` of `upvoteQuestion` applied to a question document:
already upvoted → `$pull` from upvotes; already downvoted → `$pull` from
downvotes and `$push` onto upvotes; neither → `$addToSet` into upvotes. -/
def applyUpvoteUpdate (p : QuestionVoteParams) (q : Question) : Question :=
  if p.hasAlreadyUpvoted then
    { q with upvotes := q.upvotes.filter (fun u => u != p.userId) }
  else if p.hasAlreadyDownvoted then
    { q with downvotes := q.downvotes.filter (fun u => u != p.userId),
             upvotes := q.upvotes ++ [p.userId] }
  else
    { q with upvotes :=
        if q.upvotes.contains p.userId then q.upvotes
        else q.upvotes ++ [p.userId] }

/-- The `updateQuery` of `downvoteQuestion`. In the already-downvoted branch
the source writes `$pull: { downvote: userId }` — the singular path `downvote`
does not exist on the Question document (its array field is `downvotes`), so
the pull touches no stored field and the document is unchanged. -/
def applyDownvoteUpdate (p : QuestionVoteParams) (q : Question) : Question :=
  if p.hasAlreadyDownvoted then
    q
  else if p.hasAlreadyUpvoted then
    { q with upvotes := q.upvotes.filter (fun u => u != p.userId),
             downvotes := q.downvotes ++ [p.userId] }
  else
    { q with downvotes :=
        if q.downvotes.contains p.userId then q.downvotes
        else q.downvotes ++ [p.userId] }

/-- `upvoteQuestion`: apply the update via `findByIdAndUpdate` (first match,
returning the updated document), throw "Question not found" to the caller if
nothing matched (the write was already issued, but matched no document), then
`$inc` the voter's reputation by ±2 and the author's by ±10, sign decided by
`hasAlreadyUpvoted`. Returns the final store state and the caller-visible
error. -/
def upvoteQuestion (db : DB) (p : QuestionVoteParams) : DB × Option String :=
  let questions := updateFirst (fun q => q.id == p.questionId)
    (applyUpvoteUpdate p) db.questions
  match db.questions.find? (fun q => q.id == p.questionId) with
  | none => ({ db with questions := questions }, some "Question not found")
  | some q0 =>
    let question := applyUpvoteUpdate p q0
    let users1 := incReputation db.users p.userId
      (if p.hasAlreadyUpvoted then -2 else 2)
    let users2 := incReputation users1 question.author
      (if p.hasAlreadyUpvoted then -10 else 10)
    ({ db with questions := questions, users := users2 }, none)

/-- `downvoteQuestion`: symmetric to `upvoteQuestion`, with the sign of the
reputation increments decided by `hasAlreadyDownvoted` (but see
`applyDownvoteUpdate` for the misspelled pull path in the toggle-off
branch). -/
def downvoteQuestion (db : DB) (p : QuestionVoteParams) : DB × Option String :=
  let questions := updateFirst (fun q => q.id == p.questionId)
    (applyDownvoteUpdate p) db.questions
  match db.questions.find? (fun q => q.id == p.questionId) with
  | none => ({ db with questions := questions }, some "Question not found")
  | some q0 =>
    let question := applyDownvoteUpdate p q0
    let users1 := incReputation db.users p.userId
      (if p.hasAlreadyDownvoted then -2 else 2)
    let users2 := incReputation users1 question.author
      (if p.hasAlreadyDownvoted then -10 else 10)
    ({ db with questions := questions, users := users2 }, none)

/-- Parameters of `deleteQuestion`. -/
structure DeleteQuestionParams where
  questionId : Nat
  path : String

/-- `deleteQuestion`: load the question, `deleteOne` it, `deleteMany` the
answers and interactions referencing it, pull its id out of every tag's
question list, then decrement the loaded question's author's reputation by 5.
There is no existence guard: when the load found nothing, reading `.author`
of null throws after the deletes already ran, the catch logs it, and the
reputation update never happens. The catch swallows every error, so the
caller never sees one. -/
def deleteQuestion (db : DB) (p : DeleteQuestionParams) : DB :=
  let question := db.questions.find? (fun q => q.id == p.questionId)
  let questions := db.questions.eraseP (fun q => q.id == p.questionId)
  let answers := db.answers.filter (fun a => !(a.question == p.questionId))
  let interactions :=
    db.interactions.filter (fun i => !(i.question == p.questionId))
  let tags := db.tags.map (fun t =>
    if t.questions.contains p.questionId then
      { t with questions := t.questions.filter (fun q => q != p.questionId) }
    else t)
  let users := match question with
    | some q => incReputation db.users q.author (-5)
    | none => db.users
  { questions := questions, tags := tags, users := users,
    interactions := interactions, answers := answers }

/-- Parameters of `editQuestion`. -/
structure EditQuestionParams where
  questionId : Nat
  title : String
  content : String
  path : String

/-- The body of `editQuestion` inside the try block: load the question
(populated tags unused), throw "Question not found" if absent, otherwise
overwrite title and content and save. Returns the store state and the error
raised inside the try block, before the catch is applied. -/
def editQuestionBody (db : DB) (p : EditQuestionParams) : DB × Option String :=
  match db.questions.find? (fun q => q.id == p.questionId) with
  | none => (db, some "Question not found")
  | some _ =>
    let questions := updateFirst (fun q => q.id == p.questionId)
      (fun q => { q with title := p.title, content := p.content }) db.questions
    ({ db with questions := questions }, none)

/-- `editQuestion` as the caller observes it: the catch block only logs, so
the internal error never escapes — the caller-visible error component is
always `none`, whatever the body raised. -/
def editQuestion (db : DB) (p : EditQuestionParams) : DB × Option String :=
  ((editQuestionBody db p).1, none)

/-- `getHotQuestions`: top 5 by views then upvote count, descending. -/
def getHotQuestions (db : DB) : List Question :=
  (db.questions.mergeSort (fun a b =>
    decide (b.views < a.views ∨
      (b.views = a.views ∧ b.upvotes.length ≤ a.upvotes.length)))).take 5

/-- Parameters of `getRecommendedQuestions`. -/
structure RecommendedParams where
  userId : String
  page : Nat := 1
  pageSize : Nat := 10
  searchQuery : Option String := none

/-- The distinct tag ids flattened from a user's Interaction history:
concatenate each interaction's tags in order, then dedupe. -/
def userTagIds (db : DB) (uid : Nat) : List Nat :=
  (((db.interactions.filter (fun i => i.user == uid)).foldl
    (fun acc i => acc ++ i.tags) []).eraseDups)

/-- The query of `getRecommendedQuestions`: the question's tags intersect the
user's interaction-derived tag set AND the author is not the user, AND — when
a search text is supplied — title or content matches it case-insensitively. -/
def recommendedQuery (db : DB) (user : User) (sq : Option String)
    (q : Question) : Bool :=
  (q.tags.any (fun t => (userTagIds db user.id).contains t) &&
    !(q.author == user.id)) && matchesSearch sq q

/-- `getRecommendedQuestions`: resolve the external identity (hard error when
unknown), build the recommendation query, count matches, return the
`skip`/`limit` page and the same `isNext` convention as `getQuestions`. -/
def getRecommendedQuestions (db : DB) (p : RecommendedParams) :
    Except String (List Question × Bool) :=
  match db.users.find? (fun u => u.clerkId == p.userId) with
  | none => .error "user not found"
  | some user =>
    let skipAmount := (p.page - 1) * p.pageSize
    let matched := db.questions.filter (recommendedQuery db user p.searchQuery)
    let totalQuestions := matched.length
    let recommendedQuestions := (matched.drop skipAmount).take p.pageSize
    .ok (recommendedQuestions,
      decide (skipAmount + recommendedQuestions.length < totalQuestions))

/-! ## General lemmas about the store primitives -/

/-- When no document matches the filter, `updateFirst` changes nothing. -/
theorem updateFirst_of_find_none {α : Type} (p : α → Bool) (f : α → α) :
    ∀ l : List α, l.find? p = none → updateFirst p f l = l := by
  intro l
  induction l with
  | nil => intro _; rfl
  | cons a rest ih =>
    intro h
    cases hpa : p a with
    | true => simp [List.find?, hpa] at h
    | false =>
      simp only [List.find?, hpa] at h
      simp [updateFirst, hpa, ih h]

/-- `updateFirst` rewrites the first match: when the filter found `a` and the
update preserves filter membership, the lookup after the update returns
`f a`. -/
theorem find_updateFirst_self {α : Type} (p : α → Bool) (f : α → α)
    (hf : ∀ a, p (f a) = p a) :
    ∀ (l : List α) (a : α), l.find? p = some a →
      (updateFirst p f l).find? p = some (f a) := by
  intro l
  induction l with
  | nil => intro a h; simp [List.find?] at h
  | cons b rest ih =>
    intro a h
    cases hpb : p b with
    | true =>
      simp only [List.find?, hpb] at h
      cases h
      simp [updateFirst, hpb, List.find?, hf]
    | false =>
      simp only [List.find?, hpb] at h
      simp [updateFirst, hpb, List.find?, ih a h]

/-- A lookup by a filter `q` disjoint from the update filter `p` is unchanged
by `updateFirst`, provided the update preserves `q`-status. -/
theorem find_updateFirst_other {α : Type} (p q : α → Bool) (f : α → α)
    (hpq : ∀ x, p x = true → q x = false) (hf : ∀ x, q (f x) = q x) :
    ∀ l : List α, (updateFirst p f l).find? q = l.find? q := by
  intro l
  induction l with
  | nil => rfl
  | cons b rest ih =>
    cases hpb : p b with
    | true =>
      have hqb : q b = false := hpq b hpb
      have hqfb : q (f b) = false := by rw [hf]; exact hqb
      simp [updateFirst, hpb, List.find?, hqb, hqfb]
    | false =>
      cases hqb : q b with
      | true => simp [updateFirst, hpb, List.find?, hqb]
      | false => simp [updateFirst, hpb, List.find?, hqb, ih]

/-- `updateFirst` skips a prefix with no matches. -/
theorem updateFirst_append_left {α : Type} (p : α → Bool) (f : α → α) :
    ∀ (l1 l2 : List α), (∀ x ∈ l1, p x = false) →
      updateFirst p f (l1 ++ l2) = l1 ++ updateFirst p f l2 := by
  intro l1
  induction l1 with
  | nil => intro l2 _; rfl
  | cons a rest ih =>
    intro l2 h
    have ha : p a = false := h a (by simp)
    simp only [List.cons_append, updateFirst, ha, if_neg Bool.false_ne_true]
    exact congrArg (a :: ·) (ih l2 (fun x hx => h x (by simp [hx])))

/-- `find?` skips a prefix with no matches. -/
theorem find_append_left {α : Type} (p : α → Bool) :
    ∀ (l1 l2 : List α), (∀ x ∈ l1, p x = false) →
      (l1 ++ l2).find? p = l2.find? p := by
  intro l1
  induction l1 with
  | nil => intro l2 _; rfl
  | cons a rest ih =>
    intro l2 h
    have ha : p a = false := h a (by simp)
    simp only [List.cons_append, List.find?, ha]
    exact ih l2 (fun x hx => h x (by simp [hx]))

/-- After `eraseP` on a list holding at most one match, no match remains. -/
theorem eraseP_all_not {α : Type} (p : α → Bool) :
    ∀ l : List α, l.countP p ≤ 1 → ∀ x ∈ l.eraseP p, p x = false := by
  intro l
  induction l with
  | nil => intro _ x hx; simp at hx
  | cons a rest ih =>
    intro hc x hx
    cases hpa : p a with
    | true =>
      rw [List.eraseP_cons_of_pos hpa] at hx
      rw [List.countP_cons_of_pos _ _ hpa] at hc
      have hz : rest.countP p = 0 := by omega
      have := List.countP_eq_zero.mp hz x hx
      simpa using this
    | false =>
      rw [List.eraseP_cons_of_neg (by simp [hpa])] at hx
      rw [List.countP_cons_of_neg _ _ (by simp [hpa])] at hc
      rcases List.mem_cons.mp hx with rfl | hx'
      · exact hpa
      · exact ih hc x hx'

/-- The two successive reputation `$inc`s of a vote operation, observed
through lookups of the (distinct) voter and author. -/
theorem incReputation_pair (users : List User) (voter author : Nat)
    (dv da : Int) (uv ua : User) (hne : voter ≠ author)
    (hv : users.find? (fun u => u.id == voter) = some uv)
    (ha : users.find? (fun u => u.id == author) = some ua) :
    (incReputation (incReputation users voter dv) author da).find?
        (fun u => u.id == voter) =
      some { uv with reputation := uv.reputation + dv } ∧
    (incReputation (incReputation users voter dv) author da).find?
        (fun u => u.id == author) =
      some { ua with reputation := ua.reputation + da } := by
  have hid1 : ∀ u : User,
      (({ u with reputation := u.reputation + dv } : User).id == voter) =
        (u.id == voter) := fun u => rfl
  have hid1' : ∀ u : User,
      (({ u with reputation := u.reputation + dv } : User).id == author) =
        (u.id == author) := fun u => rfl
  have hid2 : ∀ u : User,
      (({ u with reputation := u.reputation + da } : User).id == author) =
        (u.id == author) := fun u => rfl
  have hid2' : ∀ u : User,
      (({ u with reputation := u.reputation + da } : User).id == voter) =
        (u.id == voter) := fun u => rfl
  have hdisj1 : ∀ u : User, (u.id == author) = true → (u.id == voter) = false := by
    intro u h
    have : u.id = author := by simpa using h
    simp [this, Ne.symm hne]
  have hdisj2 : ∀ u : User, (u.id == voter) = true → (u.id == author) = false := by
    intro u h
    have : u.id = voter := by simpa using h
    simp [this, hne]
  constructor
  · rw [incReputation, find_updateFirst_other _ _ _ hdisj1 hid2']
    exact find_updateFirst_self _ _ hid1 users uv hv
  · rw [incReputation, ← incReputation]
    refine find_updateFirst_self _ _ hid2 _ ua ?_
    rw [incReputation, find_updateFirst_other _ _ _ hdisj2 hid1']
    exact ha

/-- The upvote update never changes the document id. -/
theorem applyUpvoteUpdate_id (p : QuestionVoteParams) (q : Question) :
    (applyUpvoteUpdate p q).id = q.id := by
  unfold applyUpvoteUpdate
  split <;> [rfl; skip]
  split <;> rfl

/-- The upvote update never changes the author. -/
theorem applyUpvoteUpdate_author (p : QuestionVoteParams) (q : Question) :
    (applyUpvoteUpdate p q).author = q.author := by
  unfold applyUpvoteUpdate
  split <;> [rfl; skip]
  split <;> rfl

/-- The downvote update never changes the document id. -/
theorem applyDownvoteUpdate_id (p : QuestionVoteParams) (q : Question) :
    (applyDownvoteUpdate p q).id = q.id := by
  unfold applyDownvoteUpdate
  split <;> [rfl; skip]
  split <;> rfl

/-- The downvote update never changes the author. -/
theorem applyDownvoteUpdate_author (p : QuestionVoteParams) (q : Question) :
    (applyDownvoteUpdate p q).author = q.author := by
  unfold applyDownvoteUpdate
  split <;> [rfl; skip]
  split <;> rfl

/-! ## A concrete sample store, used by witnesses and counterexamples -/

/-- A question authored by user 5, currently downvoted by user 7. -/
def sampleQuestion : Question :=
  { id := 1, title := "How to use Rust", content := "Borrow checker",
    author := 5, tags := [3], upvotes := [], downvotes := [7], views := 4,
    answers := [], createdAt := 10 }

/-- A second question by the same author, with one answer. -/
def sampleQuestion2 : Question :=
  { id := 2, title := "Mongo", content := "Indexes", author := 5, tags := [3],
    upvotes := [], downvotes := [], views := 9, answers := [11],
    createdAt := 20 }

/-- The author of the sample questions. -/
def sampleAuthor : User := { id := 5, clerkId := "a", reputation := 100 }

/-- The sample voting / browsing user. -/
def sampleVoter : User := { id := 7, clerkId := "b", reputation := 50 }

/-- A sample store with two questions, one tag, two users, one interaction of
the voter with question 1, and one answer on question 1. -/
def sampleDB : DB :=
  { questions := [sampleQuestion, sampleQuestion2],
    tags := [{ id := 3, name := "rust", questions := [1, 2] }],
    users := [sampleAuthor, sampleVoter],
    interactions :=
      [{ user := 7, action := "view_question", question := 1, tags := [3] }],
    answers := [{ question := 1 }] }

/-- User 7 toggling off their downvote on question 1. -/
def downToggleParams : QuestionVoteParams :=
  { questionId := 1, userId := 7, hasAlreadyUpvoted := false,
    hasAlreadyDownvoted := true, path := "/" }

/-- A store with no questions and no tags. -/
def freshDB : DB :=
  { questions := [], tags := [], users := [sampleAuthor],
    interactions := [], answers := [] }

/-- Creating a question with two tag names differing only in case. -/
def rustParams : CreateQuestionParams :=
  { title := "t", content := "c", tags := ["Rust", "rust"], author := 5,
    path := "/" }

/-- An edit aimed at a question id that resolves to no document. -/
def editMissingParams : EditQuestionParams :=
  { questionId := 99, title := "x", content := "y", path := "/" }

/-- A vote aimed at a question id that resolves to no document. -/
def voteMissingParams : QuestionVoteParams :=
  { questionId := 99, userId := 7, hasAlreadyUpvoted := false,
    hasAlreadyDownvoted := false, path := "/" }

/-! ## The claims -/

/-- C10: a vote (up or down) on a question id that resolves to no document
surfaces the "Question not found" error to the caller and leaves the entire
store unchanged: the issued `findByIdAndUpdate` matched no document, and the
throw happens before either reputation `$inc` is attempted. -/
theorem claim_C10 (db : DB) (p : QuestionVoteParams)
    (hq : db.questions.find? (fun q => q.id == p.questionId) = none) :
    upvoteQuestion db p = (db, some "Question not found") ∧
    downvoteQuestion db p = (db, some "Question not found") := by
  constructor
  · simp [upvoteQuestion, hq, updateFirst_of_find_none _ _ _ hq]
  · simp [downvoteQuestion, hq, updateFirst_of_find_none _ _ _ hq]

/-- C10 witness: voting on the absent question 99 of the sample store. -/
theorem claim_C10_witness :
    upvoteQuestion sampleDB voteMissingParams =
      (sampleDB, some "Question not found") ∧
    downvoteQuestion sampleDB voteMissingParams =
      (sampleDB, some "Question not found") :=
  claim_C10 sampleDB voteMissingParams (by decide)

/-- C9: with a filter value outside {newest, frequent, unanswered},
`getQuestions` returns the page in insertion order — no sort applied — and
the only predicate is the optional case-insensitive search match on title or
content. -/
theorem claim_C9 (db : DB) (p : GetQuestionsParams)
    (h1 : p.filter ≠ some "newest") (h2 : p.filter ≠ some "frequent")
    (h3 : p.filter ≠ some "unanswered") :
    (getQuestions db p).1 =
      ((db.questions.filter (fun q => matchesSearch p.searchQuery q)).drop
        ((p.page - 1) * p.pageSize)).take p.pageSize := by
  have hq : questionQuery p = fun q => matchesSearch p.searchQuery q := by
    funext q; simp [questionQuery, h3]
  have hs : ∀ l, questionSort p l = l := by
    intro l; simp [questionSort, h1, h2]
  simp only [getQuestions, hs, hq]

/-- C9 witness: the unknown filter value "hot" on the sample store. -/
theorem claim_C9_witness :
    (getQuestions sampleDB { filter := some "hot" }).1 =
      ((sampleDB.questions.filter
        (fun q => matchesSearch (none : Option String) q)).drop
        ((1 - 1) * 10)).take 10 :=
  claim_C9 sampleDB { filter := some "hot" }
    (by decide) (by decide) (by decide)

/-- C5 (amended): on a question id that resolves to no document, the body of
`editQuestion` raises the hard "Question not found" error — distinct from the
soft `none` of `getQuestionById` — but the catch block logs and swallows it,
so the caller observes a normal, error-free return and the store is
unchanged. -/
theorem claim_C5 (db : DB) (p : EditQuestionParams)
    (hq : db.questions.find? (fun q => q.id == p.questionId) = none) :
    editQuestionBody db p = (db, some "Question not found") ∧
    editQuestion db p = (db, none) := by
  have hb : editQuestionBody db p = (db, some "Question not found") := by
    simp [editQuestionBody, hq]
  exact ⟨hb, by simp [editQuestion, hb]⟩

/-- C5 counterexample: editing the absent question 99 of the sample store.
The internal body raises the hard error, but the caller-visible error
component of `editQuestion` is `none` — no error is raised to the caller,
refuting the claim as stated. -/
theorem claim_C5_counterexample :
    sampleDB.questions.find?
      (fun q => q.id == editMissingParams.questionId) = none ∧
    (editQuestion sampleDB editMissingParams).2 = none ∧
    editQuestionBody sampleDB editMissingParams =
      (sampleDB, some "Question not found") := by
  refine ⟨by decide, rfl, by decide⟩

/-- C5 witness (for the amended claim). -/
theorem claim_C5_witness :
    editQuestionBody sampleDB editMissingParams =
      (sampleDB, some "Question not found") ∧
    editQuestion sampleDB editMissingParams = (sampleDB, none) :=
  claim_C5 sampleDB editMissingParams (by decide)

/-- C2 (the code evaluated at the failing input): toggling off a downvote
pulls from the misspelled singular path `downvote`, which does not exist on
the Question document, so the voter is NOT removed from the `downvotes` set —
the stored question document comes back entirely unchanged, with user 7 still
in `sampleQuestion.downvotes` — even though the call reports success. -/
theorem claim_C2 :
    downToggleParams.hasAlreadyDownvoted = true ∧
    (downvoteQuestion sampleDB downToggleParams).1.questions.find?
        (fun q => q.id == 1) = some sampleQuestion ∧
    (7 : Nat) ∈ sampleQuestion.downvotes ∧
    (downvoteQuestion sampleDB downToggleParams).2 = none := by
  refine ⟨rfl, by decide, by decide, rfl⟩

/-- C1: any vote call on an existing question adjusts the (distinct) voter's
reputation by exactly 2 and the question author's by exactly 10; the sign is
-1 exactly when the call removes a previously-applied vote of the same kind
as reported by the caller (`hasAlreadyUpvoted` for upvote,
`hasAlreadyDownvoted` for downvote), and +1 otherwise. -/
theorem claim_C1 (db : DB) (p : QuestionVoteParams) (q0 : Question)
    (uv ua : User)
    (hq : db.questions.find? (fun q => q.id == p.questionId) = some q0)
    (hne : p.userId ≠ q0.author)
    (hv : db.users.find? (fun u => u.id == p.userId) = some uv)
    (ha : db.users.find? (fun u => u.id == q0.author) = some ua) :
    ((upvoteQuestion db p).1.users.find? (fun u => u.id == p.userId) =
        some { uv with reputation :=
          uv.reputation + (if p.hasAlreadyUpvoted then -2 else 2) } ∧
      (upvoteQuestion db p).1.users.find? (fun u => u.id == q0.author) =
        some { ua with reputation :=
          ua.reputation + (if p.hasAlreadyUpvoted then -10 else 10) }) ∧
    ((downvoteQuestion db p).1.users.find? (fun u => u.id == p.userId) =
        some { uv with reputation :=
          uv.reputation + (if p.hasAlreadyDownvoted then -2 else 2) } ∧
      (downvoteQuestion db p).1.users.find? (fun u => u.id == q0.author) =
        some { ua with reputation :=
          ua.reputation + (if p.hasAlreadyDownvoted then -10 else 10) }) := by
  have h1 := incReputation_pair db.users p.userId q0.author
    (if p.hasAlreadyUpvoted then -2 else 2)
    (if p.hasAlreadyUpvoted then -10 else 10) uv ua hne hv ha
  have h2 := incReputation_pair db.users p.userId q0.author
    (if p.hasAlreadyDownvoted then -2 else 2)
    (if p.hasAlreadyDownvoted then -10 else 10) uv ua hne hv ha
  constructor
  · simp only [upvoteQuestion, hq, applyUpvoteUpdate_author]
    exact h1
  · simp only [downvoteQuestion, hq, applyDownvoteUpdate_author]
    exact h2

/-- C1 witness: user 7 toggling off their downvote on sample question 1
(authored by user 5): the voter loses 2 and the author loses 10 on the
downvote call; on the upvote call (reported state: downvoted) both gain. -/
theorem claim_C1_witness :
    (((upvoteQuestion sampleDB downToggleParams).1.users.find?
        (fun u => u.id == downToggleParams.userId) =
      some { sampleVoter with reputation := sampleVoter.reputation +
        (if downToggleParams.hasAlreadyUpvoted then -2 else 2) } ∧
      (upvoteQuestion sampleDB downToggleParams).1.users.find?
        (fun u => u.id == sampleQuestion.author) =
      some { sampleAuthor with reputation := sampleAuthor.reputation +
        (if downToggleParams.hasAlreadyUpvoted then -10 else 10) }) ∧
    ((downvoteQuestion sampleDB downToggleParams).1.users.find?
        (fun u => u.id == downToggleParams.userId) =
      some { sampleVoter with reputation := sampleVoter.reputation +
        (if downToggleParams.hasAlreadyDownvoted then -2 else 2) } ∧
      (downvoteQuestion sampleDB downToggleParams).1.users.find?
        (fun u => u.id == sampleQuestion.author) =
      some { sampleAuthor with reputation := sampleAuthor.reputation +
        (if downToggleParams.hasAlreadyDownvoted then -10 else 10) })) :=
  claim_C1 sampleDB downToggleParams sampleQuestion sampleVoter sampleAuthor
    (by decide) (by decide) (by decide) (by decide)

/-- C3: upvoting with reported state "downvoted" (and not upvoted) pulls the
user from the downvotes set and pushes them onto the upvotes set in the one
call — the user ends up in upvotes and not in downvotes, hence never in both —
and the reputation adjustment uses the add sign: +2 for the voter, +10 for
the author. -/
theorem claim_C3 (db : DB) (p : QuestionVoteParams) (q0 : Question)
    (uv ua : User)
    (hq : db.questions.find? (fun q => q.id == p.questionId) = some q0)
    (hdown : p.hasAlreadyDownvoted = true)
    (hup : p.hasAlreadyUpvoted = false)
    (hne : p.userId ≠ q0.author)
    (hv : db.users.find? (fun u => u.id == p.userId) = some uv)
    (ha : db.users.find? (fun u => u.id == q0.author) = some ua) :
    (upvoteQuestion db p).1.questions.find? (fun q => q.id == p.questionId) =
      some { q0 with
        downvotes := q0.downvotes.filter (fun u => u != p.userId),
        upvotes := q0.upvotes ++ [p.userId] } ∧
    p.userId ∉ (applyUpvoteUpdate p q0).downvotes ∧
    p.userId ∈ (applyUpvoteUpdate p q0).upvotes ∧
    ¬ (p.userId ∈ (applyUpvoteUpdate p q0).upvotes ∧
       p.userId ∈ (applyUpvoteUpdate p q0).downvotes) ∧
    (upvoteQuestion db p).1.users.find? (fun u => u.id == p.userId) =
      some { uv with reputation := uv.reputation + 2 } ∧
    (upvoteQuestion db p).1.users.find? (fun u => u.id == q0.author) =
      some { ua with reputation := ua.reputation + 10 } := by
  have happ : applyUpvoteUpdate p q0 =
      { q0 with
        downvotes := q0.downvotes.filter (fun u => u != p.userId),
        upvotes := q0.upvotes ++ [p.userId] } := by
    simp [applyUpvoteUpdate, hup, hdown]
  have hfind :
      (upvoteQuestion db p).1.questions.find?
        (fun q => q.id == p.questionId) =
      some (applyUpvoteUpdate p q0) := by
    simp only [upvoteQuestion, hq]
    exact find_updateFirst_self _ _
      (fun a => by rw [applyUpvoteUpdate_id]) db.questions q0 hq
  have hnotdown : p.userId ∉ (applyUpvoteUpdate p q0).downvotes := by
    rw [happ]
    simp [List.mem_filter]
  have hinup : p.userId ∈ (applyUpvoteUpdate p q0).upvotes := by
    rw [happ]
    simp
  have hrep := incReputation_pair db.users p.userId q0.author 2 10 uv ua
    hne hv ha
  refine ⟨by rw [hfind, happ], hnotdown, hinup,
    fun h => hnotdown h.2, ?_, ?_⟩
  · simp only [upvoteQuestion, hq, applyUpvoteUpdate_author, hup,
      if_neg Bool.false_ne_true]
    exact hrep.1
  · simp only [upvoteQuestion, hq, applyUpvoteUpdate_author, hup,
      if_neg Bool.false_ne_true]
    exact hrep.2

/-- C3 witness: user 7 switching their downvote on sample question 1 to an
upvote. -/
theorem claim_C3_witness :
    (upvoteQuestion sampleDB downToggleParams).1.questions.find?
        (fun q => q.id == downToggleParams.questionId) =
      some { sampleQuestion with
        downvotes := sampleQuestion.downvotes.filter
          (fun u => u != downToggleParams.userId),
        upvotes := sampleQuestion.upvotes ++ [downToggleParams.userId] } ∧
    downToggleParams.userId ∉
      (applyUpvoteUpdate downToggleParams sampleQuestion).downvotes ∧
    downToggleParams.userId ∈
      (applyUpvoteUpdate downToggleParams sampleQuestion).upvotes ∧
    ¬ (downToggleParams.userId ∈
        (applyUpvoteUpdate downToggleParams sampleQuestion).upvotes ∧
       downToggleParams.userId ∈
        (applyUpvoteUpdate downToggleParams sampleQuestion).downvotes) ∧
    (upvoteQuestion sampleDB downToggleParams).1.users.find?
        (fun u => u.id == downToggleParams.userId) =
      some { sampleVoter with reputation := sampleVoter.reputation + 2 } ∧
    (upvoteQuestion sampleDB downToggleParams).1.users.find?
        (fun u => u.id == sampleQuestion.author) =
      some { sampleAuthor with reputation := sampleAuthor.reputation + 10 } :=
  claim_C3 sampleDB downToggleParams sampleQuestion sampleVoter sampleAuthor
    (by decide) (by decide) (by decide) (by decide) (by decide) (by decide)

/-- C7: for page ≥ 1 and pageSize ≥ 1, `getQuestions` returns at most
`pageSize` questions, and its `isNext` is true iff the total count of
matching questions exceeds `(page-1)*pageSize` plus the returned count; and
`getRecommendedQuestions` follows the same convention on its success
result. -/
theorem claim_C7 (db : DB) (p : GetQuestionsParams) (p2 : RecommendedParams)
    (hpage : 1 ≤ p.page) (hsize : 1 ≤ p.pageSize)
    (hpage2 : 1 ≤ p2.page) (hsize2 : 1 ≤ p2.pageSize) :
    ((getQuestions db p).1.length ≤ p.pageSize ∧
      ((getQuestions db p).2 = true ↔
        (db.questions.filter (questionQuery p)).length >
          (p.page - 1) * p.pageSize + (getQuestions db p).1.length)) ∧
    ∀ user qs b,
      db.users.find? (fun u => u.clerkId == p2.userId) = some user →
      getRecommendedQuestions db p2 = .ok (qs, b) →
      qs.length ≤ p2.pageSize ∧
      (b = true ↔
        (db.questions.filter
          (recommendedQuery db user p2.searchQuery)).length >
          (p2.page - 1) * p2.pageSize + qs.length) := by
  refine ⟨⟨?_, ?_⟩, ?_⟩
  · simp only [getQuestions, List.length_take]
    exact Nat.min_le_left _ _
  · simp only [getQuestions]
    exact decide_eq_true_iff
  · intro user qs b hu hr
    simp only [getRecommendedQuestions, hu, Except.ok.injEq,
      Prod.mk.injEq] at hr
    obtain ⟨hqs, hb⟩ := hr
    subst hqs; subst hb
    refine ⟨?_, ?_⟩
    · simp only [List.length_take]
      exact Nat.min_le_left _ _
    · exact decide_eq_true_iff

/-- C7 witness: default pagination on the sample store, for both the listing
and the recommendation of user "b". -/
theorem claim_C7_witness :
    (((getQuestions sampleDB {}).1.length ≤ (10 : Nat) ∧
      ((getQuestions sampleDB {}).2 = true ↔
        (sampleDB.questions.filter
          (questionQuery ({} : GetQuestionsParams))).length >
          ((1 : Nat) - 1) * 10 + (getQuestions sampleDB {}).1.length)) ∧
    ∀ user qs b,
      sampleDB.users.find?
        (fun u => u.clerkId == ({ userId := "b" } : RecommendedParams).userId)
        = some user →
      getRecommendedQuestions sampleDB { userId := "b" } = .ok (qs, b) →
      qs.length ≤ (10 : Nat) ∧
      (b = true ↔
        (sampleDB.questions.filter
          (recommendedQuery sampleDB user
            ({ userId := "b" } : RecommendedParams).searchQuery)).length >
          ((1 : Nat) - 1) * 10 + qs.length)) :=
  claim_C7 sampleDB {} { userId := "b" }
    (by decide) (by decide) (by decide) (by decide)

/-- C8: every question returned by `getRecommendedQuestions` is not authored
by the requesting user and shares at least one tag with the distinct tag set
flattened from that user's Interaction history — with or without a supplied
search text (the statement quantifies over `p`, so over both cases). -/
theorem claim_C8 (db : DB) (p : RecommendedParams) (user : User)
    (qs : List Question) (b : Bool)
    (hu : db.users.find? (fun u => u.clerkId == p.userId) = some user)
    (hr : getRecommendedQuestions db p = .ok (qs, b)) :
    ∀ q ∈ qs, q.author ≠ user.id ∧
      ∃ t ∈ q.tags, t ∈ userTagIds db user.id := by
  simp only [getRecommendedQuestions, hu, Except.ok.injEq,
    Prod.mk.injEq] at hr
  obtain ⟨hqs, -⟩ := hr
  intro q hqmem
  rw [← hqs] at hqmem
  have hmem : q ∈ db.questions.filter
      (recommendedQuery db user p.searchQuery) :=
    List.drop_subset _ _ (List.take_subset _ _ hqmem)
  rw [List.mem_filter] at hmem
  obtain ⟨-, hq⟩ := hmem
  simp only [recommendedQuery, Bool.and_eq_true, List.any_eq_true,
    Bool.not_eq_true', beq_eq_false_iff_ne, List.elem_eq_mem,
    decide_eq_true_eq] at hq
  obtain ⟨⟨⟨t, htq, htu⟩, hne⟩, -⟩ := hq
  exact ⟨hne, t, htq, htu⟩

/-- C8 witness: recommending for user "b" (id 7) on the sample store: both
sample questions are authored by user 5 and tagged with tag 3, which is in
user 7's interaction history. -/
theorem claim_C8_witness :
    sampleQuestion.author ≠ sampleVoter.id ∧
    ∃ t ∈ sampleQuestion.tags, t ∈ userTagIds sampleDB sampleVoter.id :=
  claim_C8 sampleDB { userId := "b" } sampleVoter
    [sampleQuestion, sampleQuestion2] false (by decide) rfl
    sampleQuestion (by decide)

/-- C6: deleting an existing question removes the question document, every
Answer and every Interaction referencing it, pulls its reference out of every
Tag's question list, and decrements the author's reputation by exactly 5. -/
theorem claim_C6 (db : DB) (p : DeleteQuestionParams) (q0 : Question)
    (ua : User)
    (hq : db.questions.find? (fun q => q.id == p.questionId) = some q0)
    (huniq : db.questions.countP (fun q => q.id == p.questionId) ≤ 1)
    (ha : db.users.find? (fun u => u.id == q0.author) = some ua) :
    (∀ q ∈ (deleteQuestion db p).questions, q.id ≠ p.questionId) ∧
    (∀ a ∈ (deleteQuestion db p).answers, a.question ≠ p.questionId) ∧
    (∀ i ∈ (deleteQuestion db p).interactions, i.question ≠ p.questionId) ∧
    (∀ t ∈ (deleteQuestion db p).tags, p.questionId ∉ t.questions) ∧
    (deleteQuestion db p).users.find? (fun u => u.id == q0.author) =
      some { ua with reputation := ua.reputation - 5 } := by
  simp only [deleteQuestion, hq]
  refine ⟨?_, ?_, ?_, ?_, ?_⟩
  · intro q hmem
    have h := eraseP_all_not (fun q => q.id == p.questionId)
      db.questions huniq q hmem
    simpa using h
  · intro a hmem
    rw [List.mem_filter] at hmem
    simpa using hmem.2
  · intro i hmem
    rw [List.mem_filter] at hmem
    simpa using hmem.2
  · intro t hmem
    rw [List.mem_map] at hmem
    obtain ⟨s, -, rfl⟩ := hmem
    cases hc : s.questions.contains p.questionId with
    | true =>
      simp only [hc, if_true]
      simp [List.mem_filter]
    | false =>
      simp only [List.elem_eq_mem, decide_eq_false_iff_not] at hc
      simp [hc]
  · have heq : ({ ua with reputation := ua.reputation - 5 } : User) =
        { ua with reputation := ua.reputation + (-5) } := by
      simp [Int.sub_eq_add_neg]
    rw [heq]
    exact find_updateFirst_self (fun u => u.id == q0.author)
      (fun u => { u with reputation := u.reputation + (-5) })
      (fun a => rfl) db.users ua ha

/-- C6 witness: deleting sample question 1 (answered, interacted with, tagged
by tag 3, authored by user 5). -/
theorem claim_C6_witness :
    (∀ q ∈ (deleteQuestion sampleDB { questionId := 1, path := "/" }).questions,
      q.id ≠ (1 : Nat)) ∧
    (∀ a ∈ (deleteQuestion sampleDB { questionId := 1, path := "/" }).answers,
      a.question ≠ (1 : Nat)) ∧
    (∀ i ∈ (deleteQuestion sampleDB
        { questionId := 1, path := "/" }).interactions,
      i.question ≠ (1 : Nat)) ∧
    (∀ t ∈ (deleteQuestion sampleDB { questionId := 1, path := "/" }).tags,
      (1 : Nat) ∉ t.questions) ∧
    (deleteQuestion sampleDB { questionId := 1, path := "/" }).users.find?
        (fun u => u.id == sampleQuestion.author) =
      some { sampleAuthor with reputation := sampleAuthor.reputation - 5 } :=
  claim_C6 sampleDB { questionId := 1, path := "/" } sampleQuestion
    sampleAuthor (by decide) (by decide) (by decide)

/-- C4 counterexample: creating a question with tags ["Rust", "rust"] in a
store with no tags. Both names resolve to the one freshly created Tag
document — but its question list receives the new question's reference TWICE
(the `$push` runs once per name occurrence), not exactly once per distinct
underlying tag. -/
theorem claim_C4_counterexample :
    (createQuestion freshDB rustParams 100 0 9).tags =
      [{ id := 0, name := "Rust", questions := [100, 100] }] ∧
    (upsertTags freshDB.tags rustParams.tags 100 0).2 = [0, 0] ∧
    ¬ ((createQuestion freshDB rustParams 100 0 9).tags.all
        (fun t => t.questions.count 100 == 1) = true) := by
  refine ⟨by decide, by decide, by decide⟩

/-- C4 (amended): with two tag names equal up to case and no pre-existing tag
matching them, both names resolve to the same single freshly created Tag
document (so tag identity is case-insensitive), and that Tag's question list
contains the new question's reference once per tag-name occurrence — i.e.
twice for a pair like ["Rust", "rust"] — rather than exactly once per
distinct underlying tag. -/
theorem claim_C4 (db : DB) (p : CreateQuestionParams) (n1 n2 : String)
    (qid f now : Nat)
    (htags : p.tags = [n1, n2]) (hcase : lowerChars n1 = lowerChars n2)
    (hfresh : ∀ t ∈ db.tags, (lowerChars t.name == lowerChars n1) = false) :
    (createQuestion db p qid f now).tags =
      db.tags ++ [{ id := f, name := n1, questions := [qid, qid] }] ∧
    (upsertTags db.tags p.tags qid f).2 = [f, f] := by
  have hnone1 : db.tags.find? (fun t => lowerChars t.name == lowerChars n1)
      = none :=
    List.find?_eq_none.mpr (fun t ht => by simp [hfresh t ht])
  have hfind2 : (db.tags ++ [{ id := f, name := n1, questions := [qid] }]
      : List Tag).find? (fun t => lowerChars t.name == lowerChars n2) =
      some { id := f, name := n1, questions := [qid] } := by
    rw [find_append_left _ _ _
      (fun x hx => by rw [← hcase]; exact hfresh x hx)]
    simp [List.find?, hcase]
  have hupd : updateFirst (fun u => lowerChars u.name == lowerChars n2)
      (fun u => { u with questions := u.questions ++ [qid] })
      (db.tags ++ [{ id := f, name := n1, questions := [qid] }]) =
      db.tags ++ [{ id := f, name := n1, questions := [qid, qid] }] := by
    rw [updateFirst_append_left _ _ _ _
      (fun x hx => by rw [← hcase]; exact hfresh x hx)]
    simp [updateFirst, hcase]
  have hrec : upsertTags db.tags [n1, n2] qid f =
      (db.tags ++ [{ id := f, name := n1, questions := [qid, qid] }],
        [f, f]) := by
    simp only [upsertTags, hnone1, hfind2, hupd]
  constructor
  · simp only [createQuestion, htags, hrec]
  · rw [htags, hrec]

/-- C4 witness (for the amended claim): the concrete ["Rust", "rust"]
creation on the empty store. -/
theorem claim_C4_witness :
    (createQuestion freshDB rustParams 100 0 9).tags =
      freshDB.tags ++ [{ id := 0, name := "Rust", questions := [100, 100] }] ∧
    (upsertTags freshDB.tags rustParams.tags 100 0).2 = [0, 0] :=
  claim_C4 freshDB rustParams "Rust" "rust" 100 0 9 rfl (by decide)
    (by decide)

end QA
